import Mathlib

/-!
# Verification of the honeybee-ies GEM codec

A shallow embedding, in Lean 4, of the parts of the `honeybee-ies` Python
package (the GEM reader `honeybee_ies/reader.py`, the GEM writer
`honeybee_ies/writer.py` and the type registry `honeybee_ies/types.py`)
that the verified properties are about.

Conventions used throughout:

* Machine floats of the Python source are modelled as rationals (`ℚ`);
  every arithmetic operation the relevant code performs (addition,
  subtraction, multiplication, division, comparison) is exact on the
  inputs the theorems quantify over.
* External geometry-library primitives (`ladybug_geometry`) and
  host-model primitives (`honeybee`) are not part of this repository;
  where a property depends on them they are modelled as explicit
  function parameters ("oracles"), with the geometric facts the library
  guarantees stated as hypotheses of the theorems.
* Python `str(uuid.uuid4())` calls are modelled by an explicit supply
  `Nat → String` of fresh identifier strings, consumed left to right.
-/

namespace HoneybeeIes

/-! ## Type registry (`honeybee_ies/types.py`) -/

/-- The `GEM_TYPES` enumeration from `types.py`. -/
inductive GEM_TYPES where
  | Space
  | UnconditionedSpace
  | TranslucentShade
  | ContextBuilding
  | PV
  | Tree
  | Topography
  | Shade
  | Shade_2
  deriving DecidableEq, Repr, Fintype

/-- The `(category, type, subtype, keyword)` tuple of each enum member,
read off the member value strings
(`'{CATEGORY}-{TYPE}-{SUBTYPE}-{LAYER}-{COLOR}-{COLORRGB}-{KEYWORD}'`)
in `types.py`. -/
def GEM_TYPES.headerTuple : GEM_TYPES → Int × Int × Int × String
  | .Space => (1, 1, 2001, "IES")
  | .UnconditionedSpace => (1, 1, 2002, "IES")
  | .TranslucentShade => (1, 1, 2102, "IES")
  | .ContextBuilding => (1, 2, 0, "IES")
  | .PV => (3, 202, 0, "PVP")
  | .Tree => (1, 3, 0, "LAN")
  | .Topography => (1, 3, 0, "IES")
  | .Shade => (1, 4, 0, "IES")
  | .Shade_2 => (1, 4, 2101, "IES")

/-- `GEM_TYPES.from_info` from `types.py`.  The second component counts
the diagnostic messages printed (the Python body has a single `print`
in the fall-through branch and never raises). -/
def GEM_TYPES.from_info (category type_ subtype : Int) (keyword : String) :
    GEM_TYPES × Nat :=
  if category = 1 ∧ subtype = 2001 ∧ type_ = 1 ∧ keyword = "IES" then
    (.Space, 0)
  else if category = 1 ∧ subtype = 2002 ∧ type_ = 1 ∧ keyword = "IES" then
    (.UnconditionedSpace, 0)
  else if category = 1 ∧ subtype = 2102 ∧ type_ = 1 ∧ keyword = "IES" then
    (.TranslucentShade, 0)
  else if category = 1 ∧ subtype = 0 ∧ type_ = 2 ∧ keyword = "IES" then
    (.ContextBuilding, 0)
  else if category = 3 ∧ subtype = 0 ∧ type_ = 202 ∧ keyword = "PVP" then
    (.PV, 0)
  else if category = 1 ∧ subtype = 0 ∧ type_ = 3 ∧ keyword = "IES" then
    (.Topography, 0)
  else if category = 1 ∧ subtype = 0 ∧ type_ = 3 ∧ keyword = "LAN" then
    (.Tree, 0)
  else if category = 1 ∧ subtype = 0 ∧ type_ = 4 ∧ keyword = "IES" then
    (.Shade, 0)
  else if category = 1 ∧ subtype = 2101 ∧ type_ = 4 ∧ keyword = "IES" then
    (.Shade_2, 0)
  else
    (.Shade, 1)

end HoneybeeIes

namespace HoneybeeIes

/-! ## Theorems for claim C4 -/

/-- C4: for every `(category, type, subtype, keyword)` tuple, an exact
match against one of the nine fixed table rows returns the corresponding
variant with no diagnostic, and any other tuple returns the `Shade`
variant with exactly one diagnostic; `from_info` is a total function
(the Python body never raises). -/
theorem from_info_classification (c t s : Int) (k : String) :
    (∀ g : GEM_TYPES, g.headerTuple = (c, t, s, k) →
      GEM_TYPES.from_info c t s k = (g, 0)) ∧
    ((∀ g : GEM_TYPES, g.headerTuple ≠ (c, t, s, k)) →
      GEM_TYPES.from_info c t s k = (.Shade, 1)) := by
  constructor
  · intro g hg
    cases g <;>
      (simp only [GEM_TYPES.headerTuple, Prod.mk.injEq] at hg
       obtain ⟨h1, h2, h3, h4⟩ := hg
       subst h1; subst h2; subst h3; subst h4
       simp [GEM_TYPES.from_info])
  · intro h
    unfold GEM_TYPES.from_info
    split_ifs with h1 h2 h3 h4 h5 h6 h7 h8 h9
    · exact absurd (by simp [GEM_TYPES.headerTuple, h1.1, h1.2.1, h1.2.2.1, h1.2.2.2])
        (h .Space)
    · exact absurd (by simp [GEM_TYPES.headerTuple, h2.1, h2.2.1, h2.2.2.1, h2.2.2.2])
        (h .UnconditionedSpace)
    · exact absurd (by simp [GEM_TYPES.headerTuple, h3.1, h3.2.1, h3.2.2.1, h3.2.2.2])
        (h .TranslucentShade)
    · exact absurd (by simp [GEM_TYPES.headerTuple, h4.1, h4.2.1, h4.2.2.1, h4.2.2.2])
        (h .ContextBuilding)
    · exact absurd (by simp [GEM_TYPES.headerTuple, h5.1, h5.2.1, h5.2.2.1, h5.2.2.2])
        (h .PV)
    · exact absurd (by simp [GEM_TYPES.headerTuple, h6.1, h6.2.1, h6.2.2.1, h6.2.2.2])
        (h .Topography)
    · exact absurd (by simp [GEM_TYPES.headerTuple, h7.1, h7.2.1, h7.2.2.1, h7.2.2.2])
        (h .Tree)
    · exact absurd (by simp [GEM_TYPES.headerTuple, h8.1, h8.2.1, h8.2.2.1, h8.2.2.2])
        (h .Shade)
    · exact absurd (by simp [GEM_TYPES.headerTuple, h9.1, h9.2.1, h9.2.2.1, h9.2.2.2])
        (h .Shade_2)
    · rfl

/-- Witness for C4: the PV table row classifies as `PV` with no
diagnostic, and an unknown tuple classifies as `Shade` with exactly one
diagnostic. -/
theorem from_info_classification_witness :
    GEM_TYPES.from_info 3 202 0 "PVP" = (.PV, 0) ∧
    GEM_TYPES.from_info 9 9 9 "XYZ" = (.Shade, 1) :=
  ⟨(from_info_classification 3 202 0 "PVP").1 .PV (by decide),
   (from_info_classification 9 9 9 "XYZ").2 (by decide)⟩

/-! ## 2D geometry layer

Exact-rational models of the `ladybug_geometry` 2D primitives that the
reader's opening reconstruction (`_opening_from_ies` in `reader.py`)
combines.  Distances are carried as squared distances: the Python code
only ever compares distances with each other or with a nonnegative
tolerance, and `d₁ ≤ d₂ ↔ d₁² ≤ d₂²` for nonnegative reals, so every
comparison below is equivalent to the library's. -/

/-- A 2D point (`ladybug_geometry` `Point2D` / `Vector2D`) with exact
rational coordinates. -/
structure Point2 where
  x : ℚ
  y : ℚ
  deriving DecidableEq, Repr

namespace Point2

def add (p q : Point2) : Point2 := ⟨p.x + q.x, p.y + q.y⟩

def sub (p q : Point2) : Point2 := ⟨p.x - q.x, p.y - q.y⟩

def neg (p : Point2) : Point2 := ⟨-p.x, -p.y⟩

def smul (c : ℚ) (p : Point2) : Point2 := ⟨c * p.x, c * p.y⟩

def dot (p q : Point2) : ℚ := p.x * q.x + p.y * q.y

/-- Squared distance between two points. -/
def dist2 (p q : Point2) : ℚ := (p.x - q.x) ^ 2 + (p.y - q.y) ^ 2

/-- `Point2D.move` from `ladybug_geometry`. -/
def move (p v : Point2) : Point2 := add p v

end Point2

/-- A 2D line segment (`ladybug_geometry` `LineSegment2D`). -/
structure Seg where
  a : Point2
  b : Point2
  deriving DecidableEq, Repr

namespace Seg

/-- The direction vector of a segment (the `.v` property). -/
def dir (s : Seg) : Point2 := Point2.sub s.b s.a

/-- The point of the segment at parameter `t` (so `t = 0` is `a` and
`t = 1` is `b`). -/
def at_ (s : Seg) (t : ℚ) : Point2 := Point2.add s.a (Point2.smul t s.dir)

end Seg

/-- Membership of a point on a (closed) segment. -/
def SegMem (s : Seg) (q : Point2) : Prop :=
  ∃ t : ℚ, 0 ≤ t ∧ t ≤ 1 ∧ q = s.at_ t

/-- Clamp a parameter to `[0, 1]`. -/
def clamp01 (t : ℚ) : ℚ := if t < 0 then 0 else if 1 < t then 1 else t

/-- The closest point of a segment to a point:
`closest_point2d_on_line2d` from `ladybug_geometry` (orthogonal
projection with the parameter clamped to the segment), which is exact
rational arithmetic.  A degenerate segment returns its start point. -/
def closestPointOnSeg (s : Seg) (p : Point2) : Point2 :=
  let d := s.dir
  let dd := Point2.dot d d
  if dd = 0 then s.a
  else s.at_ (clamp01 (Point2.dot (Point2.sub p s.a) d / dd))

theorem clamp01_nonneg (t : ℚ) : 0 ≤ clamp01 t := by
  unfold clamp01; split_ifs <;> linarith

theorem clamp01_le_one (t : ℚ) : clamp01 t ≤ 1 := by
  unfold clamp01; split_ifs <;> linarith

/-- The closest point of a segment to any point lies on the segment. -/
theorem segMem_closestPointOnSeg (s : Seg) (p : Point2) :
    SegMem s (closestPointOnSeg s p) := by
  simp only [closestPointOnSeg]
  split_ifs with h
  · exact ⟨0, le_refl 0, by norm_num, by
      simp [Seg.at_, Point2.add, Point2.smul]⟩
  · exact ⟨clamp01 (Point2.dot (Point2.sub p s.a) s.dir /
        Point2.dot s.dir s.dir),
      clamp01_nonneg _, clamp01_le_one _, rfl⟩

/-- First element of a list minimizing the squared distance of its
closest point to `v`; this models Python's
`sorted(dist_col, key=lambda x: x[0])[0][1]` in `_opening_from_ies`
(`reader.py`): a stable sort followed by taking the head returns the
first entry attaining the minimum, which is what this left fold with a
strict comparison computes. -/
def pickClosest (v : Point2) : List Seg → Point2
  | [] => v
  | s :: rest =>
    rest.foldl
      (fun best seg =>
        if Point2.dist2 (closestPointOnSeg seg v) v < Point2.dist2 best v then
          closestPointOnSeg seg v
        else best)
      (closestPointOnSeg s v)

theorem pickClosest_foldl_le (v : Point2) (l : List Seg) (init : Point2) :
    Point2.dist2
      (l.foldl
        (fun best seg =>
          if Point2.dist2 (closestPointOnSeg seg v) v < Point2.dist2 best v then
            closestPointOnSeg seg v
          else best) init) v ≤ Point2.dist2 init v := by
  induction l generalizing init with
  | nil => simp
  | cons s rest ih =>
    simp only [List.foldl_cons]
    split_ifs with h
    · exact le_trans (ih _) (le_of_lt h)
    · exact ih init

theorem pickClosest_foldl_min (v : Point2) (l : List Seg) (init : Point2)
    (s : Seg) (hs : s ∈ l) :
    Point2.dist2
      (l.foldl
        (fun best seg =>
          if Point2.dist2 (closestPointOnSeg seg v) v < Point2.dist2 best v then
            closestPointOnSeg seg v
          else best) init) v ≤ Point2.dist2 (closestPointOnSeg s v) v := by
  induction l generalizing init with
  | nil => exact absurd hs (List.not_mem_nil s)
  | cons hd rest ih =>
    simp only [List.foldl_cons]
    rcases List.mem_cons.mp hs with h | h
    · subst h
      split_ifs with hlt
      · exact pickClosest_foldl_le v rest _
      · exact le_trans (pickClosest_foldl_le v rest init) (le_of_not_lt hlt)
    · exact ih _ h

/-- `pickClosest` over a nonempty list is minimal among the closest
points of all its segments. -/
theorem pickClosest_min (v : Point2) (l : List Seg) (s : Seg) (hs : s ∈ l) :
    Point2.dist2 (pickClosest v l) v ≤
      Point2.dist2 (closestPointOnSeg s v) v := by
  cases l with
  | nil => exact absurd hs (List.not_mem_nil s)
  | cons hd rest =>
    unfold pickClosest
    rcases List.mem_cons.mp hs with h | h
    · subst h; exact pickClosest_foldl_le v rest _
    · exact pickClosest_foldl_min v rest _ s h

theorem pickClosest_foldl_mem (v : Point2) (l : List Seg) (init : Point2) :
    l.foldl
        (fun best seg =>
          if Point2.dist2 (closestPointOnSeg seg v) v < Point2.dist2 best v then
            closestPointOnSeg seg v
          else best) init = init ∨
      ∃ s ∈ l, l.foldl
        (fun best seg =>
          if Point2.dist2 (closestPointOnSeg seg v) v < Point2.dist2 best v then
            closestPointOnSeg seg v
          else best) init = closestPointOnSeg s v := by
  induction l generalizing init with
  | nil => left; rfl
  | cons hd rest ih =>
    simp only [List.foldl_cons]
    split_ifs with h
    · rcases ih (closestPointOnSeg hd v) with h1 | ⟨s, hsmem, hs⟩
      · right; exact ⟨hd, List.mem_cons_self hd rest, h1⟩
      · right; exact ⟨s, List.mem_cons_of_mem hd hsmem, hs⟩
    · rcases ih init with h1 | ⟨s, hsmem, hs⟩
      · left; exact h1
      · right; exact ⟨s, List.mem_cons_of_mem hd hsmem, hs⟩

/-- `pickClosest` over a nonempty list returns the closest point of one
of its segments. -/
theorem pickClosest_mem (v : Point2) (l : List Seg) (hl : l ≠ []) :
    ∃ s ∈ l, pickClosest v l = closestPointOnSeg s v := by
  cases l with
  | nil => exact absurd rfl hl
  | cons hd rest =>
    unfold pickClosest
    rcases pickClosest_foldl_mem v rest (closestPointOnSeg hd v) with h | ⟨s, hsmem, hs⟩
    · exact ⟨hd, List.mem_cons_self hd rest, h⟩
    · exact ⟨s, List.mem_cons_of_mem hd hsmem, hs⟩

/-! ## Opening-vertex reconstruction (`_opening_from_ies`, `reader.py`) -/

/-- `MODEL_TOLERANCE` from `reader.py`. -/
def MODEL_TOLERANCE : ℚ := 1 / 1000

/-- The snapping tolerance used by the opening reconstruction:
`tolerance = MODEL_TOLERANCE * 5` in `_opening_from_ies`. -/
def openingTolerance : ℚ := MODEL_TOLERANCE * 5

/-- The external geometry operations `_opening_from_ies` calls on
`ladybug_geometry` objects, as an explicit oracle:

* `inside` models `Polygon2D.is_point_inside_check` on the boundary
  polygon of the parent face;
* `perpUnit s` models `s.v.rotate(PI / 2).normalize()`, the unit vector
  perpendicular to segment `s` (left of its direction); the
  corresponding `rotate(-PI / 2)` result is its negation, exactly;
* `offsetPoly boundary d` models `boundary.offset(d).segments`, the
  segments of the polygon offset by distance `d`. -/
structure SnapEnv where
  inside : Point2 → Bool
  perpUnit : Seg → Point2
  offsetPoly : List Seg → ℚ → List Seg

/-- The boundary segments within `tol` of the candidate point: the
`on_segments` list built in `_opening_from_ies` (comparison carried on
squared distances, equivalent for the positive tolerance the code
uses). -/
def segMatches (tol : ℚ) (boundary : List Seg) (v : Point2) : List Seg :=
  boundary.filter fun s => Point2.dist2 (closestPointOnSeg s v) v ≤ tol ^ 2

/-- The candidate 2D point of an opening vertex:
`Point2D(origin_2d.x - x_m, origin_2d.y - y_m)` (`reader.py:132`). -/
def candidateVertex (origin2d : Point2) (xm ym : ℚ) : Point2 :=
  ⟨origin2d.x - xm, origin2d.y - ym⟩

/-- The vertex-correction dispatch of `_opening_from_ies`
(`reader.py:134-167`): collect the boundary segments within tolerance
of the candidate point, then

* 0 matches, or a hole (`opening_type == 2`): keep the point;
* 1 match: move the point perpendicular to the matched edge by the
  tolerance, taking the positive-rotation direction when it lands
  inside; otherwise the negative-rotation direction is taken
  unconditionally, because the Python guard is
  `if boundary_2d.is_point_inside_check:` — the bound method itself
  (no call), which is always truthy;
* 2 matches: take the closest point on the offset boundary polygon
  (`offset(tolerance)`), as the first minimum of the stable sort;
* more matches: print a diagnostic and keep the point. -/
def correctVertex (env : SnapEnv) (tol : ℚ) (boundary : List Seg)
    (openingType : Int) (v : Point2) : Point2 :=
  let ms := segMatches tol boundary v
  if ms = [] ∨ openingType = 2 then v
  else if ms.length = 1 then
    let u := env.perpUnit (ms.headD ⟨v, v⟩)
    let v1 := Point2.move v (Point2.smul tol u)
    if env.inside v1 then v1
    else Point2.move v (Point2.smul tol (Point2.neg u))
  else if ms.length = 2 then
    pickClosest v (env.offsetPoly boundary tol)
  else v

/-! ## Theorems for claim C2 -/

/-- C2: when a non-hole opening vertex matches exactly one boundary
edge, the vertex is moved by exactly the tolerance distance (stated on
squared distances), perpendicular to that edge, and the direction taken
lands strictly inside the boundary whenever either perpendicular
candidate does. -/
theorem opening_edge_nudge (env : SnapEnv) (tol : ℚ) (boundary : List Seg)
    (ot : Int) (v : Point2) (s : Seg)
    (hot : ot ≠ 2)
    (hm : segMatches tol boundary v = [s])
    (hu : (env.perpUnit s).x ^ 2 + (env.perpUnit s).y ^ 2 = 1)
    (hperp : Point2.dot (env.perpUnit s) s.dir = 0) :
    Point2.dist2 (correctVertex env tol boundary ot v) v = tol ^ 2 ∧
    Point2.dot (Point2.sub (correctVertex env tol boundary ot v) v) s.dir = 0 ∧
    ((env.inside (Point2.move v (Point2.smul tol (env.perpUnit s))) = true ∨
      env.inside (Point2.move v (Point2.smul tol (Point2.neg (env.perpUnit s)))) = true) →
      env.inside (correctVertex env tol boundary ot v) = true) := by
  have hcv : correctVertex env tol boundary ot v =
      if env.inside (Point2.move v (Point2.smul tol (env.perpUnit s))) then
        Point2.move v (Point2.smul tol (env.perpUnit s))
      else Point2.move v (Point2.smul tol (Point2.neg (env.perpUnit s))) := by
    simp [correctVertex, hm, hot]
  by_cases hin :
      env.inside (Point2.move v (Point2.smul tol (env.perpUnit s))) = true
  · rw [hcv, if_pos hin]
    refine ⟨?_, ?_, fun _ => hin⟩
    · simp only [Point2.dist2, Point2.move, Point2.add, Point2.smul]
      linear_combination tol ^ 2 * hu
    · simp only [Point2.dot, Point2.sub, Point2.move, Point2.add, Point2.smul,
        Seg.dir] at hperp ⊢
      linear_combination tol * hperp
  · rw [hcv, if_neg hin]
    refine ⟨?_, ?_, ?_⟩
    · simp only [Point2.dist2, Point2.move, Point2.add, Point2.smul, Point2.neg]
      linear_combination tol ^ 2 * hu
    · simp only [Point2.dot, Point2.sub, Point2.move, Point2.add, Point2.smul,
        Point2.neg, Seg.dir] at hperp ⊢
      linear_combination (-tol) * hperp
    · intro hdisj
      rcases hdisj with h1 | h2
      · exact absurd h1 hin
      · exact h2

/-- A concrete unit-square-scaled boundary (a 10×10 square) used by the
witnesses. -/
def sqBoundary : List Seg :=
  [⟨⟨0, 0⟩, ⟨10, 0⟩⟩, ⟨⟨10, 0⟩, ⟨10, 10⟩⟩,
   ⟨⟨10, 10⟩, ⟨0, 10⟩⟩, ⟨⟨0, 10⟩, ⟨0, 0⟩⟩]

/-- A concrete snap environment for the witnesses: strict interior test
of the 10×10 square, the upward unit perpendicular (exact for the
bottom edge used by the witnesses), and a one-segment offset polygon
lying strictly inside the square. -/
def demoEnv : SnapEnv where
  inside := fun p => decide (0 < p.x ∧ p.x < 10 ∧ 0 < p.y ∧ p.y < 10)
  perpUnit := fun _ => ⟨0, 1⟩
  offsetPoly := fun _ _ => [⟨⟨1 / 200, 1 / 200⟩, ⟨5, 1 / 200⟩⟩]

/-- Witness for C2 at the point `(5, 0)` on the bottom edge of the
square: the corrected vertex is at squared distance `tolerance²` from
the original and lands strictly inside. -/
theorem opening_edge_nudge_witness :
    Point2.dist2 (correctVertex demoEnv openingTolerance sqBoundary 0 ⟨5, 0⟩)
        ⟨5, 0⟩ = openingTolerance ^ 2 ∧
    demoEnv.inside (correctVertex demoEnv openingTolerance sqBoundary 0 ⟨5, 0⟩) =
      true := by
  have h := opening_edge_nudge demoEnv openingTolerance sqBoundary 0 ⟨5, 0⟩
    ⟨⟨0, 0⟩, ⟨10, 0⟩⟩ (by decide)
    (by
      norm_num [segMatches, sqBoundary, closestPointOnSeg, clamp01, Seg.dir,
        Point2.dot, Point2.sub, Point2.dist2, Seg.at_, Point2.add, Point2.smul,
        openingTolerance, MODEL_TOLERANCE, List.filter])
    (by norm_num [demoEnv])
    (by norm_num [demoEnv, Point2.dot, Seg.dir, Point2.sub])
  exact ⟨h.1, h.2.2 (Or.inl (by
    norm_num [demoEnv, Point2.move, Point2.add, Point2.smul, openingTolerance,
      MODEL_TOLERANCE]))⟩

/-! ## Theorems for claim C3 -/

/-- C3: an opening vertex whose format offsets are both `0` is the
reference corner itself; when it lies within tolerance of two boundary
edges (and is not a hole vertex) the reader relocates it to the nearest
point on the offset copy of the boundary polygon built with offset
distance equal to the tolerance, and — since every point of that offset
copy lies strictly inside the boundary polygon (the geometric guarantee
of the inward polygon offset, stated here as the hypothesis
`hstrict`) — the relocated vertex lies strictly inside, never exactly
on the boundary. -/
theorem corner_vertex_relocation (env : SnapEnv) (tol : ℚ)
    (boundary : List Seg) (ot : Int) (origin2d : Point2)
    (strictInside : Point2 → Bool)
    (hot : ot ≠ 2)
    (hm : (segMatches tol boundary origin2d).length = 2)
    (hoff : env.offsetPoly boundary tol ≠ [])
    (hstrict : ∀ s ∈ env.offsetPoly boundary tol, ∀ q, SegMem s q →
      strictInside q = true) :
    candidateVertex origin2d 0 0 = origin2d ∧
    correctVertex env tol boundary ot origin2d =
      pickClosest origin2d (env.offsetPoly boundary tol) ∧
    (∀ s ∈ env.offsetPoly boundary tol,
      Point2.dist2 (correctVertex env tol boundary ot origin2d) origin2d ≤
        Point2.dist2 (closestPointOnSeg s origin2d) origin2d) ∧
    strictInside (correctVertex env tol boundary ot origin2d) = true := by
  have hne : segMatches tol boundary origin2d ≠ [] := by
    intro h
    rw [h] at hm
    simp at hm
  have hcv : correctVertex env tol boundary ot origin2d =
      pickClosest origin2d (env.offsetPoly boundary tol) := by
    simp [correctVertex, hne, hot, hm]
  refine ⟨by simp [candidateVertex], hcv, ?_, ?_⟩
  · intro s hs
    rw [hcv]
    exact pickClosest_min origin2d _ s hs
  · obtain ⟨s, hs, heq⟩ := pickClosest_mem origin2d _ hoff
    rw [hcv, heq]
    exact hstrict s hs _ (segMem_closestPointOnSeg s origin2d)

/-- Witness for C3 at the square's corner `(0, 0)` (both offsets `0`),
which lies on exactly two boundary edges: the relocated vertex lies
strictly inside the square. -/
theorem corner_vertex_relocation_witness :
    candidateVertex ⟨0, 0⟩ 0 0 = (⟨0, 0⟩ : Point2) ∧
    demoEnv.inside (correctVertex demoEnv openingTolerance sqBoundary 0 ⟨0, 0⟩) =
      true := by
  have h := corner_vertex_relocation demoEnv openingTolerance sqBoundary 0
    ⟨0, 0⟩ demoEnv.inside (by decide)
    (by
      norm_num [segMatches, sqBoundary, closestPointOnSeg, clamp01, Seg.dir,
        Point2.dot, Point2.sub, Point2.dist2, Seg.at_, Point2.add, Point2.smul,
        openingTolerance, MODEL_TOLERANCE, List.filter])
    (by simp [demoEnv])
    (by
      intro s hs q hq
      simp only [demoEnv, List.mem_singleton] at hs
      subst hs
      obtain ⟨t, ht0, ht1, rfl⟩ := hq
      simp only [demoEnv, Seg.at_, Point2.add, Point2.smul, Seg.dir,
        Point2.sub, decide_eq_true_eq]
      refine ⟨?_, ?_, ?_, ?_⟩ <;> nlinarith)
  exact ⟨h.1, h.2.2.2⟩

/-! ## Reference-corner selection and the write→read round trip -/

/-- Reader reference-corner selection (`reader.py:103-107`): the
upper-right corner of the face's local frame exactly when the face
normal's z component is `1` or `-1`, the lower-left corner otherwise. -/
def readerRefCorner {α : Type} (nz : ℚ) (upperRight lowerLeft : α) : α :=
  if nz = 1 ∨ nz = -1 then upperRight else lowerLeft

/-- Writer reference-corner selection (`writer.py:77-82`); the middle
branch (`angle to the z axis below ROOF_ANGLE_TOLERANCE`) only changes
the flip flag, not the corner. -/
def writerRefCorner {α : Type} (nz angleToZ roofAngleTol : ℚ)
    (upperRight lowerLeft : α) : α × Bool :=
  if nz = 1 ∨ nz = -1 then (upperRight, true)
  else if angleToZ < roofAngleTol then (lowerLeft, true)
  else (lowerLeft, false)

/-- Modelled from the spec: the writer's `_opening_to_ies` projects each
3D opening vertex into the parent face's 2D frame through
`Face3D.polygon_in_face` (external `ladybug_geometry`, out of the
repository), producing the 2D offset pair that the reader later
subtracts from the reference corner; in the face's own frame this is
`corner − vertex` componentwise. -/
def writerOffsets (origin2d v2d : Point2) : ℚ × ℚ :=
  (origin2d.x - v2d.x, origin2d.y - v2d.y)

/-! ## Theorems for claim C7 -/

/-- C7: the writer selects the same reference corner as the reader for
every face normal (upper-right exactly when `nz ∈ {1, -1}`, lower-left
otherwise); the reader's candidate-vertex computation inverts the
writer's offset projection exactly; and the subsequent snap correction
leaves the reconstructed vertex within the snap tolerance of the
original (given that the offset polygon used by the two-edge corner
branch passes within the tolerance of the vertex). -/
theorem writer_reader_corner_roundtrip :
    (∀ (α : Type) (nz angleToZ roofAngleTol : ℚ) (ur ll : α),
      (writerRefCorner nz angleToZ roofAngleTol ur ll).1 =
        readerRefCorner nz ur ll) ∧
    (∀ origin2d v : Point2,
      candidateVertex origin2d (writerOffsets origin2d v).1
        (writerOffsets origin2d v).2 = v) ∧
    (∀ (env : SnapEnv) (tol : ℚ) (boundary : List Seg) (ot : Int)
      (origin2d v : Point2),
      0 ≤ tol →
      (∀ s : Seg, (env.perpUnit s).x ^ 2 + (env.perpUnit s).y ^ 2 = 1) →
      ((segMatches tol boundary v).length = 2 →
        ∃ s ∈ env.offsetPoly boundary tol,
          Point2.dist2 (closestPointOnSeg s v) v ≤ tol ^ 2) →
      Point2.dist2
        (correctVertex env tol boundary ot
          (candidateVertex origin2d (writerOffsets origin2d v).1
            (writerOffsets origin2d v).2)) v ≤ tol ^ 2) := by
  have hinv : ∀ origin2d v : Point2,
      candidateVertex origin2d (writerOffsets origin2d v).1
        (writerOffsets origin2d v).2 = v := by
    intro origin2d v
    simp [candidateVertex, writerOffsets]
  refine ⟨?_, hinv, ?_⟩
  · intro α nz angleToZ roofAngleTol ur ll
    unfold writerRefCorner readerRefCorner
    split_ifs <;> rfl
  · intro env tol boundary ot origin2d v htol hu hprox
    rw [hinv]
    unfold correctVertex
    by_cases h0 : segMatches tol boundary v = [] ∨ ot = 2
    · simp only [if_pos h0, Point2.dist2]
      simp only [sub_self]
      norm_num
      positivity
    · rw [if_neg h0]
      by_cases h1 : (segMatches tol boundary v).length = 1
      · rw [if_pos h1]
        obtain ⟨s, hms⟩ := List.length_eq_one.mp h1
        rw [hms]
        have husq := hu s
        by_cases hin :
            env.inside (Point2.move v (Point2.smul tol (env.perpUnit
              ([s].headD ⟨v, v⟩)))) = true
        · rw [if_pos hin]
          simp only [List.headD_cons, Point2.dist2, Point2.move, Point2.add,
            Point2.smul]
          have : (v.x + tol * (env.perpUnit s).x - v.x) ^ 2 +
              (v.y + tol * (env.perpUnit s).y - v.y) ^ 2 = tol ^ 2 := by
            linear_combination tol ^ 2 * husq
          rw [this]
        · rw [if_neg hin]
          simp only [List.headD_cons, Point2.dist2, Point2.move, Point2.add,
            Point2.smul, Point2.neg]
          have : (v.x + tol * -(env.perpUnit s).x - v.x) ^ 2 +
              (v.y + tol * -(env.perpUnit s).y - v.y) ^ 2 = tol ^ 2 := by
            linear_combination tol ^ 2 * husq
          rw [this]
      · rw [if_neg h1]
        by_cases h2 : (segMatches tol boundary v).length = 2
        · rw [if_pos h2]
          obtain ⟨s, hs, hd⟩ := hprox h2
          exact le_trans (pickClosest_min v _ s hs) hd
        · rw [if_neg h2]
          simp [Point2.dist2]
          positivity

/-- Witness for C7: concrete corner selections agree, and a write→read
round trip of the vertex `(5, 0)` of the square face stays within the
snap tolerance. -/
theorem writer_reader_corner_roundtrip_witness :
    (writerRefCorner (1 : ℚ) 0 (1 / 2) (3 : ℚ) 4).1 =
      readerRefCorner (1 : ℚ) 3 4 ∧
    Point2.dist2
      (correctVertex demoEnv openingTolerance sqBoundary 0
        (candidateVertex ⟨10, 10⟩ (writerOffsets ⟨10, 10⟩ ⟨5, 0⟩).1
          (writerOffsets ⟨10, 10⟩ ⟨5, 0⟩).2)) ⟨5, 0⟩ ≤
      openingTolerance ^ 2 := by
  refine ⟨writer_reader_corner_roundtrip.1 ℚ 1 0 (1 / 2) 3 4, ?_⟩
  refine writer_reader_corner_roundtrip.2.2 demoEnv openingTolerance sqBoundary
    0 ⟨10, 10⟩ ⟨5, 0⟩ (by norm_num [openingTolerance, MODEL_TOLERANCE])
    (by intro s; norm_num [demoEnv]) ?_
  intro _
  refine ⟨⟨⟨1 / 200, 1 / 200⟩, ⟨5, 1 / 200⟩⟩, by simp [demoEnv], ?_⟩
  norm_num [closestPointOnSeg, clamp01, Seg.dir, Point2.dot, Point2.sub,
    Point2.dist2, Seg.at_, Point2.add, Point2.smul, openingTolerance,
    MODEL_TOLERANCE]

/-! ## Hole decoding and the air-boundary threshold
(`_parse_gem_segment`, `reader.py:363-442`)

The per-face hole block of the Space / UnconditionedSpace branch.  The
geometry values produced by the external library are abstract (`Geo`),
with the three library operations the block calls provided as an
oracle. -/

/-- One face returned by `Face3D.coplanar_difference`, with the holes of
the reconstructed base face. -/
structure BaseFaceRec (Geo : Type) where
  geo : Geo
  holes : List Geo
  deriving DecidableEq, Repr

/-- The external geometry operations used by the hole block:

* `snapTo3d` models `boundary_polygon2d.snap_to_polygon(hole, 5 * tol)`
  followed by `plane.xy_to_xyz` on each vertex (the same composite is
  used in the multi-hole air-boundary path and in the below-threshold
  path);
* `diff` models `boundary_geometry.coplanar_difference(holes_3d_snapped,
  tolerance, angle_tolerance)`, already normalized to a list (the code
  wraps a single returned `Face3D` into a list);
* `closeCenters` models
  `hole_geo.center.distance_to_point(f_hole_geo.center) <= 5 * tol`. -/
structure HoleOracle (Geo : Type) where
  snapTo3d : Geo → Geo
  diff : List Geo → List (BaseFaceRec Geo)
  closeCenters : Geo → Geo → Bool

/-- A face appended to the segment's face list while processing one
boundary face of a Space / UnconditionedSpace segment:

* `parentPlain`: the parent `Face` itself (no holes path);
* `parentAir`: the parent `Face` itself retyped as `AirBoundary`;
* `airHole g`: a fresh `AirBoundary` face built from hole geometry `g`
  (no user data);
* `airHoleImported g`: a fresh `AirBoundary` face built from hole
  geometry `g` carrying `{'__ies_import__': True}`;
* `base b`: a plain `Face` built from base-face fragment `b`. -/
inductive EmittedFace (Geo : Type) where
  | parentPlain
  | parentAir
  | airHole (g : Geo)
  | airHoleImported (g : Geo)
  | base (b : BaseFaceRec Geo)
  deriving DecidableEq, Repr

/-- `holes_3d_snapped` (`reader.py:389-396`): each hole snapped to the
boundary polygon and mapped back to 3D. -/
def snappedHoles {Geo : Type} (o : HoleOracle Geo) (holes : List (Geo × ℚ)) :
    List Geo :=
  holes.map fun h => o.snapTo3d h.1

/-- For each snapped hole (outer list, in hole order) and each base face
of the coplanar difference (inner list, in base-face order), the first
reconstructed hole of that base face whose center matches
(`reader.py:406-417`; the inner `break` leaves only the scan of one
base face's own holes, so every base face is visited for every hole). -/
def holeMatchTable {Geo : Type} (o : HoleOracle Geo)
    (holes : List (Geo × ℚ)) : List (List (Option Geo)) :=
  (snappedHoles o holes).map fun g =>
    (o.diff (snappedHoles o holes)).map fun bf =>
      bf.holes.find? fun fh => o.closeCenters g fh

/-- The untagged air-boundary faces emitted inside the hole loop for
holes matched by no base face (`reader.py:418-425`; the `for ... else`
clause always runs because the loop over base faces never breaks, so
the guard is exactly "the hole is in no base face's match list"). -/
def unmatchedAirFaces {Geo : Type} (o : HoleOracle Geo)
    (holes : List (Geo × ℚ)) : List (EmittedFace Geo) :=
  ((snappedHoles o holes).zip (holeMatchTable o holes)).filterMap fun p =>
    if p.2.all Option.isNone then some (EmittedFace.airHole p.1) else none

/-- `holes_flattened` turned into tagged air-boundary faces
(`reader.py:427-436`): for each base face in order, the matched
reconstructed holes in hole order. -/
def importedHoleFaces {Geo : Type} (o : HoleOracle Geo)
    (holes : List (Geo × ℚ)) : List (EmittedFace Geo) :=
  (((List.range (o.diff (snappedHoles o holes)).length).map fun j =>
      (holeMatchTable o holes).filterMap fun row => row.getD j none).flatten).map
    EmittedFace.airHoleImported

/-- The faces emitted for one boundary face of a Space segment, as a
function of the decoded holes (each a 2D polygon paired with its area)
and the boundary area: the `if holes:` block of `reader.py:363-442`,
with the fall-through `faces.append(face)` for the hole-free case. -/
def processSpaceFace {Geo : Type} (o : HoleOracle Geo) (boundaryArea : ℚ)
    (holes : List (Geo × ℚ)) : List (EmittedFace Geo) :=
  if holes.isEmpty then [.parentPlain]
  else if 98 / 100 * boundaryArea ≤ (holes.map Prod.snd).sum then
    if holes.length = 1 then [.parentAir]
    else holes.map fun h => .airHole (o.snapTo3d h.1)
  else
    unmatchedAirFaces o holes ++ importedHoleFaces o holes ++
      (o.diff (snappedHoles o holes)).map EmittedFace.base

/-! ## Theorems for claim C1 -/

/-- C1: when the total hole area reaches 98% of the boundary area, a
single hole retypes the parsed face itself into one air-boundary face
(and nothing else is emitted for that face), while multiple holes emit
exactly one air-boundary face per hole and never the parent face; below
the threshold the base faces of the coplanar difference are all
emitted, so at least one base face accompanies the hole-derived faces
whenever the difference is nonempty (which the geometry library
guarantees when the holes cover less than 98% of the face). -/
theorem hole_air_boundary_threshold {Geo : Type} (o : HoleOracle Geo)
    (bArea : ℚ) (holes : List (Geo × ℚ)) :
    (98 / 100 * bArea ≤ (holes.map Prod.snd).sum →
      ((holes.length = 1 → processSpaceFace o bArea holes = [.parentAir]) ∧
       (2 ≤ holes.length →
        processSpaceFace o bArea holes =
          holes.map fun h => .airHole (o.snapTo3d h.1)))) ∧
    (holes ≠ [] → (holes.map Prod.snd).sum < 98 / 100 * bArea →
      (∃ pre : List (EmittedFace Geo),
        processSpaceFace o bArea holes =
          pre ++ (o.diff (snappedHoles o holes)).map EmittedFace.base) ∧
      (o.diff (snappedHoles o holes) ≠ [] →
        ∃ bf, EmittedFace.base bf ∈ processSpaceFace o bArea holes)) := by
  constructor
  · intro hsum
    constructor
    · intro hlen
      have hne : ¬holes.isEmpty := by
        cases holes with
        | nil => simp at hlen
        | cons a l => simp
      simp [processSpaceFace, hne, hsum, hlen]
    · intro hlen
      have hne : ¬holes.isEmpty := by
        cases holes with
        | nil => simp at hlen
        | cons a l => simp
      have hlen1 : ¬holes.length = 1 := by omega
      simp [processSpaceFace, hne, hsum, hlen1]
  · intro hne0 hlt
    have hne : ¬holes.isEmpty := by
      cases holes with
      | nil => exact absurd rfl hne0
      | cons a l => simp
    have hnsum : ¬98 / 100 * bArea ≤ (holes.map Prod.snd).sum :=
      not_le.mpr hlt
    have hbranch : processSpaceFace o bArea holes =
        unmatchedAirFaces o holes ++ importedHoleFaces o holes ++
          (o.diff (snappedHoles o holes)).map EmittedFace.base := by
      unfold processSpaceFace
      rw [if_neg (by simpa using hne), if_neg hnsum]
    constructor
    · exact ⟨unmatchedAirFaces o holes ++ importedHoleFaces o holes,
        by rw [hbranch]⟩
    · intro hdiff
      cases hd : o.diff (snappedHoles o holes) with
      | nil => exact absurd hd hdiff
      | cons bf rest =>
        refine ⟨bf, ?_⟩
        rw [hbranch, hd]
        exact List.mem_append_right _
          (List.mem_map_of_mem _ (List.mem_cons_self bf rest))

/-- A concrete hole oracle over natural-number geometry tokens for the
witness: snapping is the identity, the coplanar difference returns one
base face with no reconstructed holes, and no centers match. -/
def demoHoleOracle : HoleOracle Nat where
  snapTo3d := id
  diff := fun _ => [⟨7, []⟩]
  closeCenters := fun _ _ => false

/-- Witness for C1: on a face of area 100, a single hole of area 99
yields exactly the retyped parent air-boundary face; two holes of total
area 99 yield one air-boundary face per hole and no parent; a single
hole of area 10 yields at least one base face. -/
theorem hole_air_boundary_threshold_witness :
    processSpaceFace demoHoleOracle 100 [((1 : Nat), (99 : ℚ))] =
      [.parentAir] ∧
    processSpaceFace demoHoleOracle 100 [((1 : Nat), (50 : ℚ)), (2, 49)] =
      [.airHole 1, .airHole 2] ∧
    ∃ bf, EmittedFace.base bf ∈
      processSpaceFace demoHoleOracle 100 [((1 : Nat), (10 : ℚ))] := by
  refine ⟨?_, ?_, ?_⟩
  · exact ((hole_air_boundary_threshold demoHoleOracle 100 [(1, 99)]).1
      (by norm_num)).1 (by norm_num)
  · have h := ((hole_air_boundary_threshold demoHoleOracle 100
      [(1, 50), (2, 49)]).1 (by norm_num)).2 (by norm_num)
    rw [h]
    norm_num [demoHoleOracle]
  · exact ((hole_air_boundary_threshold demoHoleOracle 100 [(1, 10)]).2
      (by norm_num) (by norm_num)).2 (by norm_num [demoHoleOracle])

/-! ## Room identifier remapping (`_gen_ve_id` / `_convert_room_ids`,
`writer.py:15-60`)

Strings are modelled over their ASCII character content; the regex
character classes the code uses are exact Boolean character tests. -/

/-- A vowel in either case: the `aeiouAEIOU` part of the regex class. -/
def isVowelChar (c : Char) : Bool :=
  c = 'a' || c = 'e' || c = 'i' || c = 'o' || c = 'u' ||
  c = 'A' || c = 'E' || c = 'I' || c = 'O' || c = 'U'

/-- A Python word character (`\w`): alphanumeric or underscore.  The
regex class `\W` used by `_gen_ve_id` matches exactly the complement of
this. -/
def isPyWordChar (c : Char) : Bool :=
  c.isAlphanum || c = '_'

/-- A character removed by `re.sub(r"[aeiouAEIOU\s\W]+", '', ...)` in
`_gen_ve_id`: a vowel, a whitespace character, or a non-word
character.  Note that the underscore is a word character, so it is
kept, although the function's own docstring and inline comment describe
the class as non-alphanumeric. -/
def removedByVePattern (c : Char) : Bool :=
  isVowelChar c || c.isWhitespace || !isPyWordChar c

/-- `_gen_ve_id` (`writer.py:15-35`): strip the pattern characters,
upper-case, error when fewer than two characters remain, return the
first two. -/
def genVeId (displayName : String) : Except String String :=
  let cleaned :=
    (displayName.toList.filter fun c => !removedByVePattern c).map Char.toUpper
  if cleaned.length < 2 then
    .error ("Invalid display name: " ++ displayName)
  else .ok (String.mk (cleaned.take 2))

/-- The 2-letter-code derivation in the words of the claim (and of the
function's docstring): remove vowels, whitespace and non-alphanumeric
characters — including the underscore — upper-case, error below two
characters, take the first two. -/
def genVeIdSpec (displayName : String) : Except String String :=
  let cleaned :=
    (displayName.toList.filter fun c =>
      !(isVowelChar c || c.isWhitespace || !c.isAlphanum)).map Char.toUpper
  if cleaned.length < 2 then
    .error ("Invalid display name: " ++ displayName)
  else .ok (String.mk (cleaned.take 2))

/-- Python `f'{n:06d}'` for the nonnegative counters used here. -/
def pad6 (n : Nat) : String :=
  let s := toString n
  if s.length < 6 then String.mk (List.replicate (6 - s.length) '0') ++ s
  else s

/-- Lookup in an insertion-ordered association list (a Python dict whose
only operations here are `in`, indexing and item assignment). -/
def lookupAssoc {β : Type} (l : List (String × β)) (k : String) : Option β :=
  (l.find? fun p => p.1 = k).map Prod.snd

/-- Item assignment on an insertion-ordered association list. -/
def updateAssoc {β : Type} (l : List (String × β)) (k : String) (v : β) :
    List (String × β) :=
  if (l.find? fun p => p.1 = k).isSome then
    l.map fun p => if p.1 = k then (k, v) else p
  else l ++ [(k, v)]

/-- A Honeybee `Room` as the writer sees it: an identifier and a display
name. -/
structure RoomE where
  identifier : String
  displayName : String
  deriving DecidableEq, Repr

/-- The loop body state of `_convert_room_ids`: remaining rooms, the
`id_counter` dict and the `id_mapper` dict.  `accept` models the host
model's identifier setter (`room.identifier = ...`), which raises
`AssertionError` exactly on the identifiers it rejects; on rejection
the room falls back to the fixed `RM` prefix with the same counter
value.  A `ValueError` from `_gen_ve_id` propagates. -/
def convertRoomIdsGo (accept : String → Bool) :
    List RoomE → List (String × Nat) → List (String × String) →
    Except String (List RoomE × List (String × String))
  | [], _, mapper => .ok ([], mapper)
  | r :: rest, counter, mapper =>
    match genVeId r.displayName with
    | .error e => .error e
    | .ok veId =>
      let cnt :=
        match lookupAssoc counter veId with
        | none => 0
        | some n => n + 1
      let counter2 := updateAssoc counter veId cnt
      let fullVeId := veId ++ pad6 cnt
      let mapper2 := mapper ++ [(r.identifier, fullVeId)]
      let newId := if accept fullVeId then fullVeId else "RM" ++ pad6 cnt
      match convertRoomIdsGo accept rest counter2 mapper2 with
      | .error e => .error e
      | .ok (rooms, mapperOut) =>
        .ok ({ r with identifier := newId } :: rooms, mapperOut)

/-- `_convert_room_ids` (`writer.py:38-60`): remap every room identifier
and return the updated rooms together with the old→new mapping dict. -/
def convertRoomIds (accept : String → Bool) (rooms : List RoomE) :
    Except String (List RoomE × List (String × String)) :=
  convertRoomIdsGo accept rooms [] []

/-! ## Theorems for claim C5 -/

/-- C5 (code bug): for the display name `"_Room"` the code's regex
`[aeiouAEIOU\s\W]+` keeps the underscore — Python `\W` is the
complement of `\w`, and the underscore is a word character — so
`_gen_ve_id` returns `"_R"`, whereas the claim (and the function's own
docstring and inline comment) prescribe removing non-alphanumeric
characters, which gives `"RM"`.  Consequently `_convert_room_ids` on a
single room named `"_Room"` produces the identifier `"_R000000"`
instead of the claimed `"RM000000"`. -/
theorem gen_ve_id_underscore_bug :
    genVeId "_Room" = .ok "_R" ∧
    genVeIdSpec "_Room" = .ok "RM" ∧
    convertRoomIds (fun _ => true) [⟨"room_1", "_Room"⟩] =
      .ok ([⟨"_R000000", "_Room"⟩], [("room_1", "_R000000")]) := by
  refine ⟨rfl, rfl, rfl⟩

/-! ## Parsed objects, user data and `_update_name` (`reader.py:35-88`) -/

/-- A 3D point with exact rational coordinates. -/
structure Point3 where
  x : ℚ
  y : ℚ
  z : ℚ
  deriving DecidableEq, Repr

/-- A value stored in a `user_data` dictionary (the code stores strings,
integers and booleans). -/
inductive UD where
  | s (v : String)
  | n (v : Int)
  | b (v : Bool)
  deriving DecidableEq, Repr

/-- Dictionary lookup on user data. -/
def udLookup (l : List (String × UD)) (k : String) : Option UD :=
  (l.find? fun p => p.1 = k).map Prod.snd

/-- Dict item assignment: replace the value at the key in place, or
append the new pair. -/
def udSet : List (String × UD) → String → UD → List (String × UD)
  | [], k, v => [(k, v)]
  | p :: rest, k, v =>
    if p.1 = k then (k, v) :: rest else p :: udSet rest k v

/-- `dict.update`: assign every pair of `upd` into `base` in order. -/
def udUpdate (base upd : List (String × UD)) : List (String × UD) :=
  upd.foldl (fun acc kv => udSet acc kv.1 kv.2) base

/-- `_add_user_date` (`reader.py:35-43`): no-op on empty data, update an
existing dictionary, otherwise attach the new one. -/
def addUserData (base upd : List (String × UD)) : List (String × UD) :=
  if upd.isEmpty then base else udUpdate base upd

/-- `_get_id` (`reader.py:46-56`): the regex `\s\[(.*)\]$` on a
single-line display name.  The leftmost match starts at the first
whitespace character followed by `[`; the greedy capture then runs to
the final `]`, which must be the last character.  Returns the helper
`tagStartIdx` index of that first occurrence. -/
def tagStartIdx : List Char → Option Nat
  | c1 :: c2 :: rest =>
    if c1.isWhitespace ∧ c2 = '[' then some 0
    else (tagStartIdx (c2 :: rest)).map fun i => i + 1
  | _ => none

/-- `_get_id`: extract the bracketed identifier tag from a display name,
when present. -/
def getId (displayName : String) : Option String :=
  let cs := displayName.toList
  if cs.getLast? = some ']' then
    match tagStartIdx cs with
    | some i => some (String.mk ((cs.drop (i + 2)).dropLast))
    | none => none
  else none

/-- A Honeybee `Shade` as produced by the reader: identifier, display
name, user data, boundary geometry and the detached flag. -/
structure ShadeE where
  identifier : String
  displayName : String
  userData : List (String × UD)
  boundary : List Point3
  isDetached : Bool
  deriving DecidableEq, Repr

/-- The Python f-string rendering of the `count` argument of
`_update_name` (an `int` or `None`). -/
def pyCountStr : Option Int → String
  | none => "None"
  | some n => toString n

/-- Python truthiness of the `count` argument (`None` and `0` are
falsy). -/
def countTruthy : Option Int → Bool
  | none => false
  | some n => decide (n ≠ 0)

/-- The group identifier computed by `_update_name` (`reader.py:62-64`):
`clean_string(display_name)` when `count` is truthy, otherwise
`clean_string(f'{display_name}-{count}')`.  `clean_string` is the
external `honeybee.typing.clean_string`, passed in as `clean`. -/
def veGroupId (clean : String → String) (displayName : String)
    (count : Option Int) : String :=
  if countTruthy count then clean displayName
  else clean (displayName ++ "-" ++ pyCountStr count)

/-- `_update_name` (`reader.py:59-74`) on a non-`Room` object: attach
the `__group_id__` user-data key, then override the identifier and
strip the tag from the display name when the name carries a bracketed
identifier tag. -/
def updateNameShade (clean : String → String) (displayName : String)
    (count : Option Int) (sh : ShadeE) : ShadeE :=
  let gid := veGroupId clean displayName count
  let sh2 :=
    { sh with userData := addUserData sh.userData [("__group_id__", UD.s gid)] }
  match getId displayName with
  | some tid =>
    { sh2 with
        identifier :=
          if countTruthy count then tid ++ "-" ++ pyCountStr count else tid,
        displayName := displayName.replace (" [" ++ tid ++ "]") "" }
  | none => { sh2 with displayName := displayName }

/-- An `Aperture` parsed from an opening block (`reader.py:331-335`). -/
structure ApertureE where
  identifier : String
  boundary : List Point3
  deriving DecidableEq, Repr

/-- A room `Face` parsed from a face block (`reader.py:349-361`). -/
structure FaceE where
  identifier : String
  boundary : List Point3
  apertures : List ApertureE
  deriving DecidableEq, Repr

/-- A `Room` parsed from a Space segment. -/
structure RoomParsedE where
  identifier : String
  displayName : String
  faces : List FaceE
  deriving DecidableEq, Repr

/-- `_update_name` on a `Room`: no group id; the identifier is
overridden only by a bracketed tag (`count` is `None` at this call
site, so the plain tag is used). -/
def updateNameRoom (displayName : String) (r : RoomParsedE) : RoomParsedE :=
  match getId displayName with
  | some tid =>
    { r with
        identifier := tid,
        displayName := displayName.replace (" [" ++ tid ++ "]") "" }
  | none => { r with displayName := displayName }

/-! ## A segment reader (`_parse_gem_segment` / `model_from_gem`,
`reader.py:250-512`)

The reader for the two segment shapes the identifier claims range over:
a generic Shade segment (hole-free faces) and a Space segment whose
faces may carry apertures.  `supply : Nat → String` is the stream of
`str(uuid.uuid4())` results, consumed left to right: one per segment
for `clean_and_id_ep_string`, one per parsed `Face`/`Shade`, one per
parsed `Aperture`. -/

/-- One face block of a Space segment: boundary plus aperture (type 0)
opening blocks. -/
structure SpaceFaceData where
  boundary : List Point3
  apertures : List (List Point3)
  deriving DecidableEq, Repr

/-- A GEM segment after header classification and body decoding. -/
inductive GemSegE where
  | shadeSeg (displayName : String) (faces : List (List Point3))
  | spaceSeg (displayName : String) (faces : List SpaceFaceData)
  deriving DecidableEq, Repr

/-- What `_parse_gem_segment` returns for one segment. -/
inductive ParsedObj where
  | room (r : RoomParsedE)
  | shades (ss : List ShadeE)
  deriving DecidableEq, Repr

/-- Decode the aperture blocks of one face: each `Aperture` gets a fresh
uuid identifier (`reader.py:334`). -/
def parseApertures (supply : Nat → String) :
    Nat → List (List Point3) → List ApertureE × Nat
  | k, [] => ([], k)
  | k, b :: rest =>
    let p := parseApertures supply (k + 1) rest
    (⟨supply k, b⟩ :: p.1, p.2)

/-- Decode the face blocks of a Space segment: each `Face` gets a fresh
uuid identifier (`reader.py:352`), then its apertures. -/
def parseSpaceFaces (supply : Nat → String) :
    Nat → List SpaceFaceData → List FaceE × Nat
  | k, [] => ([], k)
  | k, f :: rest =>
    let faceId := supply k
    let aps := parseApertures supply (k + 1) f.apertures
    let fs := parseSpaceFaces supply aps.2 rest
    (⟨faceId, f.boundary, aps.1⟩ :: fs.1, fs.2)

/-- Decode the face blocks of a Shade segment: each face becomes a
`Shade` via `_create_shade` (fresh uuid identifier, not detached) and
`_update_name` with no count. -/
def parseShadeFaces (clean : String → String) (supply : Nat → String)
    (displayName : String) :
    Nat → List (List Point3) → List ShadeE × Nat
  | k, [] => ([], k)
  | k, b :: rest =>
    let sh := updateNameShade clean displayName none
      ⟨supply k, "", [], b, false⟩
    let ss := parseShadeFaces clean supply displayName (k + 1) rest
    (sh :: ss.1, ss.2)

/-- `_parse_gem_segment` for the two modelled segment shapes.  Every
segment first computes `identifier = clean_and_id_ep_string(...)`
(`reader.py:273`), consuming one uuid; `clean_and_id_ep_string` is the
external `honeybee.typing` helper that appends the first 8 characters
of a fresh uuid to the cleaned name. -/
def parseGemSegmentE (clean : String → String) (supply : Nat → String)
    (k : Nat) : GemSegE → ParsedObj × Nat
  | .shadeSeg name faces =>
    let ss := parseShadeFaces clean supply name (k + 1) faces
    (.shades ss.1, ss.2)
  | .spaceSeg name faces =>
    let roomId := clean name ++ "_" ++ (supply k).take 8
    let fs := parseSpaceFaces supply (k + 1) faces
    (.room (updateNameRoom name ⟨roomId, "", fs.1⟩), fs.2)

/-- `model_from_gem`: parse the segments in order, threading the uuid
stream. -/
def modelFromGemE (clean : String → String) (supply : Nat → String) :
    Nat → List GemSegE → List ParsedObj
  | _, [] => []
  | k, seg :: rest =>
    let p := parseGemSegmentE clean supply k seg
    p.1 :: modelFromGemE clean supply p.2 rest

/-! ### Observable projections (everything except identifiers) -/

/-- A parsed face without its identifiers: boundary and aperture
boundaries. -/
def FaceE.shape (f : FaceE) : List Point3 × List (List Point3) :=
  (f.boundary, f.apertures.map fun a => a.boundary)

/-- A parsed shade without its identifier: display name, user data,
geometry, detached flag. -/
def ShadeE.shape (sh : ShadeE) :
    String × List (String × UD) × List Point3 × Bool :=
  (sh.displayName, sh.userData, sh.boundary, sh.isDetached)

/-- The identifier-free observables of a parsed object. -/
inductive ObjShape where
  | room (displayName : String)
      (faces : List (List Point3 × List (List Point3)))
  | shades (ss : List (String × List (String × UD) × List Point3 × Bool))
  deriving DecidableEq, Repr

def ParsedObj.shape : ParsedObj → ObjShape
  | .room r => .room r.displayName (r.faces.map FaceE.shape)
  | .shades ss => .shades (ss.map ShadeE.shape)

/-- All identifiers carried by a parsed object. -/
def ParsedObj.identifiers : ParsedObj → List String
  | .room r =>
    r.identifier ::
      (r.faces.map fun f =>
        f.identifier :: f.apertures.map fun a => a.identifier).flatten
  | .shades ss => ss.map fun s => s.identifier

/-- The display name after stripping a bracketed identifier tag. -/
def tagStrippedName (displayName : String) : String :=
  match getId displayName with
  | some tid => displayName.replace (" [" ++ tid ++ "]") ""
  | none => displayName

/-- The canonical (supply-independent) shape of a parsed segment. -/
def segShape (clean : String → String) : GemSegE → ObjShape
  | .shadeSeg name faces =>
    .shades (faces.map fun b =>
      (tagStrippedName name,
       [("__group_id__", UD.s (veGroupId clean name none))], b, false))
  | .spaceSeg name faces =>
    .room (tagStrippedName name) (faces.map fun f => (f.boundary, f.apertures))

theorem updateNameShade_fresh_shape (clean : String → String)
    (name : String) (c : Option Int) (i : String) (b : List Point3) :
    (updateNameShade clean name c ⟨i, "", [], b, false⟩).shape =
      (tagStrippedName name,
       [("__group_id__", UD.s (veGroupId clean name c))], b, false) := by
  cases h : getId name <;>
    simp [updateNameShade, ShadeE.shape, tagStrippedName, h, addUserData,
      udUpdate, udSet]

theorem parseShadeFaces_shape (clean : String → String)
    (supply : Nat → String) (name : String) (faces : List (List Point3)) :
    ∀ k, ((parseShadeFaces clean supply name k faces).1).map ShadeE.shape =
      faces.map fun b =>
        (tagStrippedName name,
         [("__group_id__", UD.s (veGroupId clean name none))], b, false) := by
  induction faces with
  | nil => intro k; rfl
  | cons b rest ih =>
    intro k
    simp only [parseShadeFaces, List.map_cons, ih (k + 1),
      updateNameShade_fresh_shape]

theorem parseApertures_boundaries (supply : Nat → String)
    (bs : List (List Point3)) :
    ∀ k, ((parseApertures supply k bs).1).map (fun a => a.boundary) = bs := by
  induction bs with
  | nil => intro k; rfl
  | cons b rest ih =>
    intro k
    simp only [parseApertures, List.map_cons, ih (k + 1)]

theorem parseSpaceFaces_shape (supply : Nat → String)
    (faces : List SpaceFaceData) :
    ∀ k, ((parseSpaceFaces supply k faces).1).map FaceE.shape =
      faces.map fun f => (f.boundary, f.apertures) := by
  induction faces with
  | nil => intro k; rfl
  | cons f rest ih =>
    intro k
    simp only [parseSpaceFaces, List.map_cons, ih, FaceE.shape,
      parseApertures_boundaries]

theorem parseGemSegmentE_shape (clean : String → String)
    (supply : Nat → String) (k : Nat) (seg : GemSegE) :
    (parseGemSegmentE clean supply k seg).1.shape = segShape clean seg := by
  cases seg with
  | shadeSeg name faces =>
    simp only [parseGemSegmentE, ParsedObj.shape, segShape,
      parseShadeFaces_shape]
  | spaceSeg name faces =>
    have hup : ∀ i : String,
        (updateNameRoom name ⟨i, "", (parseSpaceFaces supply (k + 1) faces).1⟩).displayName =
          tagStrippedName name ∧
        (updateNameRoom name ⟨i, "", (parseSpaceFaces supply (k + 1) faces).1⟩).faces =
          (parseSpaceFaces supply (k + 1) faces).1 := by
      intro i
      cases h : getId name <;> simp [updateNameRoom, tagStrippedName, h]
    simp only [parseGemSegmentE, ParsedObj.shape, segShape]
    rw [(hup _).1, (hup _).2, parseSpaceFaces_shape]

theorem modelFromGemE_shape (clean : String → String)
    (supply : Nat → String) (segs : List GemSegE) :
    ∀ k, (modelFromGemE clean supply k segs).map ParsedObj.shape =
      segs.map (segShape clean) := by
  induction segs with
  | nil => intro k; rfl
  | cons seg rest ih =>
    intro k
    simp only [modelFromGemE, List.map_cons, ih, parseGemSegmentE_shape]

theorem updateNameShade_tag_identifier (clean : String → String)
    (name tid : String) (sh : ShadeE) (hgid : getId name = some tid) :
    (updateNameShade clean name none sh).identifier = tid := by
  simp [updateNameShade, hgid, countTruthy]

theorem parseShadeFaces_tag_identifiers (clean : String → String)
    (supply : Nat → String) (name tid : String)
    (faces : List (List Point3)) (hgid : getId name = some tid) :
    ∀ k, ((parseShadeFaces clean supply name k faces).1).map
        (fun s => s.identifier) = faces.map fun _ => tid := by
  induction faces with
  | nil => intro k; rfl
  | cons b rest ih =>
    intro k
    simp only [parseShadeFaces, List.map_cons, ih,
      updateNameShade_tag_identifier clean name tid _ hgid]

/-! ## Theorems for claim C9 -/

/-- C9: two runs of the reader over the same segments with different
uuid supplies (and even different supply positions) agree on every
identifier-free observable — display names, user-data tags, geometry,
object kinds and counts — while the identifiers do differ in general
(they embed fresh uuids), except that identifiers recovered from a
bracketed `[id]` display-name tag are reproduced identically by every
run. -/
theorem reader_identifier_nondeterminism :
    (∀ (clean : String → String) (s1 s2 : Nat → String) (k1 k2 : Nat)
        (segs : List GemSegE),
      (modelFromGemE clean s1 k1 segs).map ParsedObj.shape =
        (modelFromGemE clean s2 k2 segs).map ParsedObj.shape) ∧
    (∃ (clean : String → String) (s1 s2 : Nat → String)
        (segs : List GemSegE),
      (modelFromGemE clean s1 0 segs).map ParsedObj.identifiers ≠
        (modelFromGemE clean s2 0 segs).map ParsedObj.identifiers) ∧
    (∀ (clean : String → String) (s1 s2 : Nat → String) (k1 k2 : Nat)
        (name : String) (faces : List (List Point3)) (tid : String),
      getId name = some tid →
      (parseGemSegmentE clean s1 k1 (.shadeSeg name faces)).1.identifiers =
        (parseGemSegmentE clean s2 k2 (.shadeSeg name faces)).1.identifiers) := by
  refine ⟨?_, ?_, ?_⟩
  · intro clean s1 s2 k1 k2 segs
    rw [modelFromGemE_shape, modelFromGemE_shape]
  · refine ⟨id, fun _ => "a", fun _ => "b", [.shadeSeg "S" [[]]], ?_⟩
    decide
  · intro clean s1 s2 k1 k2 name faces tid hgid
    simp only [parseGemSegmentE, ParsedObj.identifiers]
    rw [parseShadeFaces_tag_identifiers clean s1 name tid faces hgid,
      parseShadeFaces_tag_identifiers clean s2 name tid faces hgid]

/-- Witness for C9: a tagged shade segment parses to the same
identifiers under two different supplies and supply positions, and the
identifier-free observables of an untagged segment agree across
supplies. -/
theorem reader_identifier_nondeterminism_witness :
    (parseGemSegmentE id (fun _ => "aaaa") 0
        (.shadeSeg "Shade [S1]" [[], []])).1.identifiers =
      (parseGemSegmentE id (fun _ => "bbbb") 7
        (.shadeSeg "Shade [S1]" [[], []])).1.identifiers ∧
    (modelFromGemE id (fun _ => "aaaa") 0 [.shadeSeg "S" [[]]]).map
        ParsedObj.shape =
      (modelFromGemE id (fun _ => "bbbb") 5 [.shadeSeg "S" [[]]]).map
        ParsedObj.shape :=
  ⟨reader_identifier_nondeterminism.2.2 id (fun _ => "aaaa") (fun _ => "bbbb")
      0 7 "Shade [S1]" [[], []] "S1" (by decide),
   reader_identifier_nondeterminism.1 id (fun _ => "aaaa") (fun _ => "bbbb")
      0 5 [.shadeSeg "S" [[]]]⟩

/-! ## Shade grouping on write-back (`shades_to_ies`,
`writer.py:252-295`) -/

/-- Python truthiness of a user-data value. -/
def udTruthy : UD → Bool
  | .s v => !(v = "")
  | .n v => decide (v ≠ 0)
  | .b v => v

/-- The skip condition of `shades_to_ies` (`writer.py:269-273`):
`user_data and '__ies_import__' in user_data and
user_data['__ies_import__']`. -/
def iesImportTruthy (sh : ShadeE) : Bool :=
  !sh.userData.isEmpty &&
    (match udLookup sh.userData "__ies_import__" with
     | some v => udTruthy v
     | none => false)

/-- `shade.user_data['__group_id__']`; a missing dictionary or key
(the `TypeError`/`KeyError` path) is `none`. -/
def groupIdOf (sh : ShadeE) : Option UD :=
  udLookup sh.userData "__group_id__"

/-- Append a shade to its group in the insertion-ordered group dict. -/
def addToGroups (groups : List (UD × List ShadeE)) (k : UD) (sh : ShadeE) :
    List (UD × List ShadeE) :=
  if (groups.find? fun p => p.1 = k).isSome then
    groups.map fun p => if p.1 = k then (p.1, p.2 ++ [sh]) else p
  else groups ++ [(k, [sh])]

/-- The partition loop of `shades_to_ies` (`writer.py:266-283`): skip
import-tagged shades, send shades without a group id to `no_groups`,
group the rest by group id in insertion order. -/
def partitionShadesGo :
    List ShadeE → List (UD × List ShadeE) → List ShadeE →
    List (UD × List ShadeE) × List ShadeE
  | [], groups, noGroups => (groups, noGroups)
  | sh :: rest, groups, noGroups =>
    if iesImportTruthy sh then partitionShadesGo rest groups noGroups
    else
      match groupIdOf sh with
      | none => partitionShadesGo rest groups (noGroups ++ [sh])
      | some gid => partitionShadesGo rest (addToGroups groups gid sh) noGroups

def defaultShadeE : ShadeE := ⟨"", "", [], [], false⟩

/-- `writer.py:285-288`: pop the groups of exactly one member and treat
their single shade as ungrouped, in group insertion order. -/
def popSingles (groups : List (UD × List ShadeE)) (noGroups : List ShadeE) :
    List (UD × List ShadeE) × List ShadeE :=
  (groups.filter fun p => p.2.length != 1,
   noGroups ++ (groups.filter fun p => p.2.length == 1).map fun p =>
     p.2.headD defaultShadeE)

/-- `shades_to_ies` (`writer.py:252-295`), with the two record
serializers (`_shade_to_ies` with its thickness already applied, and
`_shade_group_to_ies`) as parameters: the ungrouped records joined by
newlines, then the grouped records, the two blocks themselves joined by
a newline. -/
def shadesToIesE (shadeToIes : ShadeE → String)
    (groupToIes : List ShadeE → String) (shades : List ShadeE) : String :=
  let part := partitionShadesGo shades [] []
  let part2 := popSingles part.1 part.2
  String.intercalate "\n" (part2.2.map shadeToIes) ++ "\n" ++
    String.intercalate "\n" (part2.1.map fun p => groupToIes p.2)

theorem udLookup_udSet_self (u : List (String × UD)) (k : String) (v : UD) :
    udLookup (udSet u k v) k = some v := by
  induction u with
  | nil => simp [udSet, udLookup]
  | cons p rest ih =>
    by_cases hp : p.1 = k
    · simp [udSet, udLookup, hp]
    · simp only [udSet, if_neg hp]
      simp only [udLookup, List.find?] at ih ⊢
      rw [show (decide (p.1 = k)) = false by simpa using hp]
      exact ih

/-- The `__group_id__` value attached by `_update_name` to any
non-`Room` object. -/
theorem updateNameShade_group_id (clean : String → String) (name : String)
    (c : Option Int) (sh : ShadeE) :
    udLookup (updateNameShade clean name c sh).userData "__group_id__" =
      some (UD.s (veGroupId clean name c)) := by
  cases h : getId name <;>
    simp [updateNameShade, h, addUserData, udUpdate, udLookup_udSet_self]

theorem partition_all_grouped (gid : UD) (shades : List ShadeE)
    (h : ∀ sh ∈ shades, iesImportTruthy sh = false ∧
      groupIdOf sh = some gid) :
    ∀ cur : List ShadeE,
      partitionShadesGo shades [(gid, cur)] [] = ([(gid, cur ++ shades)], []) := by
  induction shades with
  | nil => intro cur; simp [partitionShadesGo]
  | cons sh rest ih =>
    intro cur
    obtain ⟨h1, h2⟩ := h sh (List.mem_cons_self sh rest)
    have hadd : addToGroups [(gid, cur)] gid sh = [(gid, cur ++ [sh])] := by
      simp [addToGroups]
    simp only [partitionShadesGo, h1, Bool.false_eq_true, if_neg, h2, hadd]
    rw [ih (fun s hs => h s (List.mem_cons_of_mem sh hs)) (cur ++ [sh])]
    simp

/-! ## Theorems for claim C10 -/

/-- C10: every Shade (and ShadeMesh — both take the same non-`Room`
branch of `_update_name`) produced by parsing a GEM segment carries the
`__group_id__` user-data key derived from the segment's display name;
with no count (or count `0`) the stored group id is the cleaned display
name suffixed with the rendered count value; all shades of one shade
segment share that group id; and on write-back a list of shades sharing
one group id (at least two of them, none import-tagged) is partitioned
into a single group and emitted as exactly one grouped record. -/
theorem shade_group_id_invariant :
    (∀ (clean : String → String) (name : String) (c : Option Int)
        (sh : ShadeE),
      udLookup (updateNameShade clean name c sh).userData "__group_id__" =
        some (UD.s (veGroupId clean name c))) ∧
    (∀ (clean : String → String) (name : String) (c : Option Int),
      c = none ∨ c = some 0 →
      veGroupId clean name c = clean (name ++ "-" ++ pyCountStr c)) ∧
    (∀ (clean : String → String) (supply : Nat → String) (k : Nat)
        (name : String) (faces : List (List Point3)),
      ∀ sh ∈ (parseShadeFaces clean supply name k faces).1,
        udLookup sh.userData "__group_id__" =
          some (UD.s (veGroupId clean name none))) ∧
    (∀ (f : ShadeE → String) (g : List ShadeE → String) (gid : UD)
        (shades : List ShadeE),
      2 ≤ shades.length →
      (∀ sh ∈ shades, iesImportTruthy sh = false ∧
        groupIdOf sh = some gid) →
      partitionShadesGo shades [] [] = ([(gid, shades)], []) ∧
      shadesToIesE f g shades = "\n" ++ g shades) := by
  refine ⟨updateNameShade_group_id, ?_, ?_, ?_⟩
  · intro clean name c hc
    rcases hc with h | h <;> subst h <;> simp [veGroupId, countTruthy]
  · intro clean supply k name faces
    induction faces generalizing k with
    | nil => intro sh hs; simp [parseShadeFaces] at hs
    | cons b rest ih =>
      intro sh hs
      simp only [parseShadeFaces, List.mem_cons] at hs
      rcases hs with h | h
      · subst h; exact updateNameShade_group_id clean name none _
      · exact ih (k + 1) sh h
  · intro f g gid shades hlen hall
    have hpart : partitionShadesGo shades [] [] = ([(gid, shades)], []) := by
      cases shades with
      | nil => simp at hlen
      | cons sh rest =>
        obtain ⟨h1, h2⟩ := hall sh (List.mem_cons_self sh rest)
        have hadd : addToGroups [] gid sh = [(gid, [sh])] := by
          simp [addToGroups]
        simp only [partitionShadesGo, h1, Bool.false_eq_true, if_neg, h2, hadd]
        rw [partition_all_grouped gid rest
          (fun s hs => hall s (List.mem_cons_of_mem sh hs)) [sh]]
        simp
    refine ⟨hpart, ?_⟩
    have hlen1 : (shades.length != 1) = true := by
      cases shades with
      | nil => simp at hlen
      | cons a l =>
        cases l with
        | nil => simp at hlen
        | cons b l2 => simp
    unfold shadesToIesE
    rw [hpart]
    unfold popSingles
    simp only [List.filter, hlen1]
    have : (shades.length == 1) = false := by
      simpa using hlen1
    simp only [this]
    simp only [String.intercalate]
    rfl

/-- Two concrete shades sharing a group id, used by the C10 witness. -/
def demoShadeA : ShadeE := ⟨"i1", "S", [("__group_id__", UD.s "G")], [], false⟩

def demoShadeB : ShadeE := ⟨"i2", "S", [("__group_id__", UD.s "G")], [], false⟩

/-- Witness for C10: the tree count `0` stores the cleaned name suffixed
with `-0`; two same-group shades are partitioned into a single group
and serialized as one grouped record. -/
theorem shade_group_id_invariant_witness :
    udLookup (updateNameShade id "Tree" (some 0) defaultShadeE).userData
        "__group_id__" = some (UD.s "Tree-0") ∧
    partitionShadesGo [demoShadeA, demoShadeB] [] [] =
      ([(UD.s "G", [demoShadeA, demoShadeB])], []) ∧
    shadesToIesE (fun _ => "x") (fun l => toString l.length)
        [demoShadeA, demoShadeB] = "\n2" := by
  have hA := shade_group_id_invariant.1 id "Tree" (some 0) defaultShadeE
  have hB := shade_group_id_invariant.2.1 id "Tree" (some 0) (Or.inr rfl)
  have hD := shade_group_id_invariant.2.2.2 (fun _ => "x")
    (fun l => toString l.length) (UD.s "G") [demoShadeA, demoShadeB]
    (by norm_num) (by decide)
  refine ⟨?_, hD.1, ?_⟩
  · rw [hA, hB]; rfl
  · rw [hD.2]; rfl

/-! ## Top-level writer assembly (`model_to_gem`, `writer.py:427-452`) -/

/-- A Honeybee `ShadeMesh` as the writer serializes it (opaque
payload). -/
structure MeshE where
  payload : String
  deriving DecidableEq, Repr

/-- `shade_meshes_to_ies` (`writer.py:298-314`): empty string for no
meshes, otherwise one record per mesh joined by newlines; the per-mesh
serializer is a parameter. -/
def shadeMeshesToIesE (meshToIes : MeshE → String) (meshes : List MeshE) :
    String :=
  if meshes.isEmpty then "" else String.intercalate "\n" (meshes.map meshToIes)

/-- A Honeybee `Model` as `model_to_gem` consumes it. -/
structure ModelE where
  rooms : List RoomE
  shades : List ShadeE
  shadeMeshes : List MeshE
  deriving DecidableEq, Repr

/-- The header string literal of `model_to_gem` (`writer.py:446`).  The
Python source reads `'COM GEM data file exported by Pollination\\nANT'`
— an escaped backslash followed by `n`, i.e. a LITERAL backslash-n,
not a newline; the value is a single line.  (`model_to_ies`,
`writer.py:483`, uses a real newline instead.) -/
def modelToGemHeader : String := "COM GEM data file exported by Pollination\\nANT"

/-- `model_to_gem` (`writer.py:427-452`).  The first component is the
returned GEM text (or the propagated identifier error); the second
component is the model as the caller still sees it after the call: the
code's first statement rebinds `model` to `model.duplicate()`, so the
unit conversion (`convertUnits`, external host-model operation) and the
room-identifier remapping are applied to the duplicate only.  The
per-record serializers are parameters. -/
def modelToGem (convertUnits : ModelE → ModelE) (accept : String → Bool)
    (roomToIes : RoomE → String) (shadeToIes : ShadeE → String)
    (groupToIes : List ShadeE → String) (meshToIes : MeshE → String)
    (m : ModelE) : Except String String × ModelE :=
  let dup := convertUnits m
  match convertRoomIds accept dup.rooms with
  | .error e => (.error e, m)
  | .ok (rooms2, _mapper) =>
    (.ok (String.intercalate "\n"
      ([modelToGemHeader] ++ rooms2.map roomToIes ++
        [shadesToIesE shadeToIes groupToIes dup.shades,
         shadeMeshesToIesE meshToIes dup.shadeMeshes])), m)

/-! ## Theorems for claim C6 -/

/-- C6 (code bug): on a model with two rooms named `Room` and no shades
or meshes, `model_to_gem` emits the room records in model order
followed by the (empty) shade and shade-mesh blocks — but the leading
"header" is the SINGLE line
`COM GEM data file exported by Pollination\nANT` with a literal
backslash-n, because the Python literal escapes the backslash; the
claimed two-line header (`COM GEM data file exported by Pollination`
then `ANT`, as `model_to_ies` writes it) never appears: the emitted
header contains no newline character and differs from the claimed
first header line. -/
theorem model_to_gem_header_bug :
    (modelToGem id (fun _ => true) (fun r => r.identifier) (fun _ => "")
        (fun _ => "") (fun _ => "")
        ⟨[⟨"r1", "Room"⟩, ⟨"r2", "Room"⟩], [], []⟩).1 =
      .ok ("COM GEM data file exported by Pollination\\nANT" ++
        "\nRM000000\nRM000001\n\n\n") ∧
    ("COM GEM data file exported by Pollination\\nANT".toList.all
        fun c => c != '\n') = true ∧
    "COM GEM data file exported by Pollination\\nANT" ≠
      "COM GEM data file exported by Pollination" := by
  refine ⟨rfl, by decide, by decide⟩

/-! ## Theorems for claim C8 -/

/-- C8: `model_to_gem` never changes the caller's model — for every
unit-conversion behavior, identifier-acceptance behavior, serializer
set and input model, the model visible to the caller after the call is
the original, because every mutation is applied to the internal
duplicate; and the internal remapping is not a no-op (a room keeps its
new identifier only inside the duplicate, as the concrete evaluation
shows). -/
theorem model_to_gem_pure :
    (∀ (convertUnits : ModelE → ModelE) (accept : String → Bool)
        (roomToIes : RoomE → String) (shadeToIes : ShadeE → String)
        (groupToIes : List ShadeE → String) (meshToIes : MeshE → String)
        (m : ModelE),
      (modelToGem convertUnits accept roomToIes shadeToIes groupToIes
        meshToIes m).2 = m) ∧
    convertRoomIds (fun _ => true) [⟨"original_room_id", "Room"⟩] =
      .ok ([⟨"RM000000", "Room"⟩], [("original_room_id", "RM000000")]) ∧
    "RM000000" ≠ "original_room_id" := by
  refine ⟨?_, rfl, by decide⟩
  intro convertUnits accept roomToIes shadeToIes groupToIes meshToIes m
  unfold modelToGem
  cases h : convertRoomIds accept (convertUnits m).rooms with
  | error e => simp [h]
  | ok pr => simp [h]

end HoneybeeIes
